import Mathlib

/-!
Verification of the virtual mosaic (VRT) builder and the geometry-equivalence
comparator of the `gdal` Rust binding fragment.

The embedding translates `src/programs/raster/vrt.rs` and
`src/test_utils.rs`. The external native engine (`gdal_sys`) is modelled as
an abstract `Engine` record of pure functions; byte strings are `List Nat`;
raw pointers are `Nat` with `0` standing for the null pointer. The calls the
builder makes into the engine, and the release of the native options object
performed by Rust's drop glue at each scope exit, are recorded in an explicit
event trace so that call-boundary and lifetime properties can be stated.
-/

namespace Gdal

/-- Decidable equality for `Except` results, so concrete runs of the model
can be checked by `decide`. -/
def exceptDecEq {ε α : Type} [DecidableEq ε] [DecidableEq α] :
    (x y : Except ε α) → Decidable (x = y)
  | .error e1, .error e2 =>
    if h : e1 = e2 then .isTrue (by rw [h])
    else .isFalse (by intro hh; injection hh; contradiction)
  | .error _, .ok _ => .isFalse (fun h => Except.noConfusion h)
  | .ok _, .error _ => .isFalse (fun h => Except.noConfusion h)
  | .ok a1, .ok a2 =>
    if h : a1 = a2 then .isTrue (by rw [h])
    else .isFalse (by intro hh; injection hh; contradiction)

instance {ε α : Type} [DecidableEq ε] [DecidableEq α] : DecidableEq (Except ε α) :=
  exceptDecEq

/-- A byte string as it crosses the FFI boundary (Rust `Vec<u8>` / `Path`
bytes). `0` is the null byte. -/
abbrev Bytes := List Nat

/-- The error type of the binding (`errors::GdalError`), restricted to the two
variants this fragment can produce: `FfiNulError` (an argument string holds an
embedded null byte; the spec's `EncodingError`) and `NullPointer method msg`
(a native call returned null; the spec's `EngineError`, carrying the method
name and the engine's last diagnostic message). -/
inductive GdalError where
  | FfiNulError : GdalError
  | NullPointer : String → String → GdalError
deriving DecidableEq, Repr

/-- Rust `std::ffi::CString::new`: fails exactly when the byte string contains
an embedded null byte; otherwise the bytes pass through unchanged (the
terminating null is implicit in the model). -/
def CString.new (s : Bytes) : Except GdalError Bytes :=
  if 0 ∈ s then .error .FfiNulError else .ok s

/-- Modelled from the spec: `crate::utils::_path_to_c_string` is not under
`src/`. "Each string used as a destination path or source identifier must be
convertible to the native null-terminated string representation; conversion
fails with an `EncodingError` if the string contains an embedded null byte." -/
def _path_to_c_string (p : Bytes) : Except GdalError Bytes :=
  if 0 ∈ p then .error .FfiNulError else .ok p

/-- The argument tuple of the engine's composition call `GDALBuildVRT`:
destination string or null, source count, dataset-handle array or null,
dataset-name array or null, options pointer (`0` = null). -/
structure EngineArgs where
  dest : Option Bytes
  srcCount : Nat
  srcDatasets : Option (List Nat)
  srcDatasetNames : Option (List Bytes)
  options : Nat
deriving DecidableEq, Repr

/-- The external native engine (`gdal_sys`), §6 of the spec: the configuration
constructor `GDALBuildVRTOptionsNew` returns an opaque pointer (possibly `0`),
and the composition call `GDALBuildVRT` returns a dataset handle or `none`
(null) together with the diagnostic-channel message as it stands after the
call. -/
structure Engine where
  buildVRTOptionsNew : List Bytes → Nat
  buildVRT : EngineArgs → Option Nat × String

/-- An opened dataset, reduced to its native handle (`Dataset::c_dataset`). -/
structure Dataset where
  c_dataset : Nat
deriving DecidableEq, Repr

/-- `Dataset::from_c_dataset`: wrap a native handle as an owned dataset. -/
def Dataset.from_c_dataset (h : Nat) : Dataset := ⟨h⟩

/-- Wraps a `GDALBuildVRTOptions` pointer (`BuildVRTOptions.c_options`);
`0` models the null pointer. -/
structure BuildVRTOptions where
  c_options : Nat
deriving DecidableEq, Repr

/-- `BuildVRTOptions::new`: convert every argument with `CString::new`
(failing on the first embedded null byte) and wrap whatever pointer the
engine's constructor returns — the pointer is not checked. -/
def BuildVRTOptions.new (eng : Engine) (args : List Bytes) :
    Except GdalError BuildVRTOptions := do
  let cstr_args ← args.mapM CString.new
  .ok ⟨eng.buildVRTOptionsNew cstr_args⟩

/-- The invocation-mode helper `DSSpec`: a list of borrowed datasets or a list
of path byte strings. -/
inductive DSSpec where
  | DS : List Dataset → DSSpec
  | Path : List Bytes → DSSpec
deriving DecidableEq, Repr

/-- Observable events of a build: a call into the engine's composition
function, or the release of the native options object
(`GDALBuildVRTOptionsFree`, run by `Drop for BuildVRTOptions`). -/
inductive Event where
  | engineCall : EngineArgs → Event
  | freeOptions : Nat → Event
deriving DecidableEq, Repr

/-- The drop-glue events for an `Option<BuildVRTOptions>` going out of scope:
dropping `Some(o)` frees `o.c_options` once, dropping `None` frees nothing. -/
def dropOptEvents : Option BuildVRTOptions → List Event
  | none => []
  | some o => [.freeOptions o.c_options]

/-- The source-marshalling `match` of `_build_vrt` (vrt.rs lines 133–151):
`DS` collects the raw handles and passes a null name array; `Path` converts
every path (failing the whole operation on the first embedded null byte) and
passes a null handle array. Returns (count, handle array or null, name array
or null). -/
def marshalSources : DSSpec → Except GdalError (Nat × Option (List Nat) × Option (List Bytes))
  | .DS datasets =>
    let datasets_raw := datasets.map Dataset.c_dataset
    .ok (datasets_raw.length, some datasets_raw, none)
  | .Path paths => do
    let c_paths ← paths.mapM _path_to_c_string
    .ok (c_paths.length, none, some c_paths)

/-- The destination conversion of `_build_vrt` (vrt.rs line 125):
`dest.map(_path_to_c_string).transpose()?`. -/
def destToC : Option Bytes → Except GdalError (Option Bytes)
  | none => .ok none
  | some p => (_path_to_c_string p).map some

/-- `_build_vrt` (vrt.rs lines 119–171), with its event trace. The trace
records the engine call and the release of the options object; the release
events sit where Rust's drop glue runs them, at every exit of the function's
scope (early `?` returns included), after any engine call. -/
def _build_vrt (eng : Engine) (dest : Option Bytes) (datasets : DSSpec)
    (options : Option BuildVRTOptions) :
    Except GdalError Dataset × List Event :=
  match destToC dest with
  | .error e => (.error e, dropOptEvents options)
  | .ok c_dest =>
    let c_options := (options.map BuildVRTOptions.c_options).getD 0
    match marshalSources datasets with
    | .error e => (.error e, dropOptEvents options)
    | .ok (src_count, src_datasets, src_dataset_names) =>
      let args : EngineArgs :=
        ⟨c_dest, src_count, src_datasets, src_dataset_names, c_options⟩
      match eng.buildVRT args with
      | (none, lastMsg) =>
        (.error (.NullPointer "GDALBuildVRT" lastMsg),
          .engineCall args :: dropOptEvents options)
      | (some h, _) =>
        (.ok (Dataset.from_c_dataset h),
          .engineCall args :: dropOptEvents options)

/-- `build_vrt` (vrt.rs lines 78–93): build from a list of open datasets. -/
def build_vrt (eng : Engine) (dest : Option Bytes) (datasets : List Dataset)
    (options : Option BuildVRTOptions) : Except GdalError Dataset × List Event :=
  _build_vrt eng dest (.DS datasets) options

/-- `build_vrt_from_paths` (vrt.rs lines 102–117): build from a list of
dataset names. -/
def build_vrt_from_paths (eng : Engine) (dest : Option Bytes)
    (dataset_paths : List Bytes) (options : Option BuildVRTOptions) :
    Except GdalError Dataset × List Event :=
  _build_vrt eng dest (.Path dataset_paths) options

/-!
## Geometry equivalence (`src/test_utils.rs`, `assert_geom_equivalence`)

`vector::Geometry` itself is not under `src/`; the value tree it exposes is
modelled from the spec's data model (§3): a type tag, a name, child
geometries, and coordinate triples. Coordinates are embedded as rationals so
that the tolerance comparison `(e - t).abs() < 1e-8` is exact. The Rust
helper reports mismatches by panicking with a message; the model returns
`Except GeomMismatch Unit`, recording which check failed (and, for a
coordinate mismatch, the axis and point index the message names). -/

/-- Modelled from the spec: the `vector::Geometry` value tree (§3 Geometry) —
"an immutable tree value with a type tag, a name, zero or more child
geometries, and — for leaf/line-like geometries — an ordered sequence of
(x, y, z) coordinate triples." -/
inductive Geometry where
  | node : Nat → String → List Geometry → List (ℚ × ℚ × ℚ) → Geometry

mutual
/-- Decidable structural equality on geometry trees (the Rust fast path
`expected.eq(test)` — "same type, same topology, same coordinates
bit-for-bit", spec §4.2 step 1). -/
def Geometry.decEq : (a b : Geometry) → Decidable (a = b)
  | .node t1 n1 ch1 ps1, .node t2 n2 ch2 ps2 =>
    if ht : t1 = t2 then
      if hn : n1 = n2 then
        if hp : ps1 = ps2 then
          match Geometry.decEqList ch1 ch2 with
          | .isTrue hc => .isTrue (by rw [ht, hn, hp, hc])
          | .isFalse hc => .isFalse (by intro h; injection h; contradiction)
        else .isFalse (by intro h; injection h; contradiction)
      else .isFalse (by intro h; injection h; contradiction)
    else .isFalse (by intro h; injection h; contradiction)
termination_by structural a _ => a

/-- Decidable equality on lists of geometry trees. -/
def Geometry.decEqList : (a b : List Geometry) → Decidable (a = b)
  | [], [] => .isTrue rfl
  | [], _ :: _ => .isFalse (fun h => List.noConfusion h)
  | _ :: _, [] => .isFalse (fun h => List.noConfusion h)
  | x :: xs, y :: ys =>
    match Geometry.decEq x y, Geometry.decEqList xs ys with
    | .isTrue h1, .isTrue h2 => .isTrue (by rw [h1, h2])
    | .isFalse h1, _ => .isFalse (by intro h; injection h; contradiction)
    | _, .isFalse h2 => .isFalse (by intro h; injection h; contradiction)
termination_by structural a _ => a
end

instance : DecidableEq Geometry := Geometry.decEq

/-- `Geometry::geometry_type` — the type tag. -/
def Geometry.geometry_type : Geometry → Nat
  | .node t _ _ _ => t

/-- `Geometry::geometry_name` — the type name. -/
def Geometry.geometry_name : Geometry → String
  | .node _ n _ _ => n

/-- The child geometries (accessed in Rust via `get_geometry i`). -/
def Geometry.children : Geometry → List Geometry
  | .node _ _ ch _ => ch

/-- The coordinate triples (accessed in Rust via `get_point i`). -/
def Geometry.points : Geometry → List (ℚ × ℚ × ℚ)
  | .node _ _ _ ps => ps

/-- `Geometry::geometry_count` — the number of child geometries. -/
def Geometry.geometry_count (g : Geometry) : Nat := g.children.length

/-- Modelled from the spec: `Geometry::point_count` — "`point_count` is
meaningful only for leaf geometries; container geometries report
`point_count == 0`" (also noted in test_utils.rs line 81). -/
def Geometry.point_count (g : Geometry) : Nat :=
  if g.geometry_count = 0 then g.points.length else 0

/-- The outcome of a failed equivalence check: which `assert!` fired. A
coordinate mismatch carries the axis character and point index from the
panic message of `check_dist`. -/
inductive GeomMismatch where
  | typeMismatch : GeomMismatch
  | nameMismatch : GeomMismatch
  | countMismatch : GeomMismatch
  | pointCountMismatch : GeomMismatch
  | coordMismatch : Char → Nat → GeomMismatch
deriving DecidableEq, Repr

/-- The tolerance `EPSILON: f64 = 1e-8` of `assert_geom_equivalence`. -/
def EPSILON : ℚ := 1 / 100000000

/-- `check_dist` (test_utils.rs lines 93–100): the axis values must differ by
strictly less than `EPSILON` in absolute value; otherwise the mismatch names
the axis `n` and the point index `i`. -/
def check_dist (e t : ℚ) (n : Char) (i : Nat) : Except GeomMismatch Unit :=
  if |e - t| < EPSILON then .ok () else .error (.coordMismatch n i)

/-- The coordinate loop of `assert_geom_equivalence` (test_utils.rs lines
102–109): compare the triples pairwise by index (the loop runs with both
point counts already checked equal), x then y then z at each index. -/
def checkPoints : Nat → List (ℚ × ℚ × ℚ) → List (ℚ × ℚ × ℚ) →
    Except GeomMismatch Unit
  | _, [], _ => .ok ()
  | _, _ :: _, [] => .ok ()
  | i, (x1, y1, z1) :: ps, (x2, y2, z2) :: qs => do
    check_dist x1 x2 'x' i
    check_dist y1 y2 'y' i
    check_dist z1 z2 'z' i
    checkPoints (i + 1) ps qs

mutual
/-- `assert_geom_equivalence` (test_utils.rs lines 59–111): succeed at once on
exact structural equality; otherwise check type tag, type name, child count
and point count in order, failing fast; then recurse into children in index
order when there are children, and compare coordinates only for leaves. -/
def assert_geom_equivalence : Geometry → Geometry → Except GeomMismatch Unit
  | e@(.node _ _ ch1 pts1), a@(.node _ _ _ pts2) =>
    if e = a then .ok ()
    else if e.geometry_type ≠ a.geometry_type then .error .typeMismatch
    else if e.geometry_name ≠ a.geometry_name then .error .nameMismatch
    else if e.geometry_count ≠ a.geometry_count then .error .countMismatch
    else if e.point_count ≠ a.point_count then .error .pointCountMismatch
    else if 0 < ch1.length then checkChildren ch1 a.children
    else checkPoints 0 pts1 pts2
termination_by structural g _ => g

/-- The child loop of `assert_geom_equivalence` (test_utils.rs lines 88–91):
recurse pairwise into the children in index order. -/
def checkChildren : List Geometry → List Geometry → Except GeomMismatch Unit
  | [], _ => .ok ()
  | _ :: _, [] => .ok ()
  | c1 :: cs1, c2 :: cs2 => do
    assert_geom_equivalence c1 c2
    checkChildren cs1 cs2
termination_by structural l _ => l
end

/-!
## Helper lemmas: string conversion and traces
-/

/-- Binding a successful `Except` value applies the continuation. -/
@[simp] theorem except_bind_ok {ε α β : Type} (a : α) (f : α → Except ε β) :
    (Except.ok a : Except ε α) >>= f = f a := rfl

/-- Binding a failed `Except` value keeps the error. -/
@[simp] theorem except_bind_error {ε α β : Type} (e : ε) (f : α → Except ε β) :
    (Except.error e : Except ε α) >>= f = Except.error e := rfl

/-- `pure` for `Except` is `Except.ok`. -/
@[simp] theorem except_pure_eq_ok {ε α : Type} (a : α) :
    (pure a : Except ε α) = Except.ok a := rfl

/-- Converting a path without an embedded null byte succeeds and keeps the
bytes unchanged. -/
theorem path_to_c_string_ok (p : Bytes) (h : 0 ∉ p) :
    _path_to_c_string p = .ok p := by
  simp [_path_to_c_string, h]

/-- Converting paths that are all free of null bytes returns them unchanged. -/
theorem mapM_paths_ok (ps : List Bytes) (h : ∀ p ∈ ps, 0 ∉ p) :
    ps.mapM _path_to_c_string = .ok ps := by
  rw [← List.mapM'_eq_mapM]
  induction ps with
  | nil => rfl
  | cons p ps ih =>
    have hp : 0 ∉ p := h p (List.mem_cons_self p ps)
    have hps := ih fun q hq => h q (List.mem_cons_of_mem p hq)
    simp [List.mapM'_cons, path_to_c_string_ok p hp, hps]

/-- Converting a list of paths one of which holds a null byte fails with the
encoding error. -/
theorem mapM_paths_nul (ps : List Bytes) (h : ∃ p ∈ ps, 0 ∈ p) :
    ps.mapM _path_to_c_string = .error .FfiNulError := by
  rw [← List.mapM'_eq_mapM]
  induction ps with
  | nil => simp at h
  | cons p ps ih =>
    by_cases hp : 0 ∈ p
    · simp [List.mapM'_cons, _path_to_c_string, hp]
    · rcases h with ⟨q, hq, hq0⟩
      rcases List.mem_cons.mp hq with rfl | hq'
      · exact absurd hq0 hp
      · simp [List.mapM'_cons, path_to_c_string_ok p hp, ih ⟨q, hq', hq0⟩]

/-- The only error the path-list conversion can produce is the encoding
error. -/
theorem mapM_paths_error (ps : List Bytes) (e : GdalError)
    (h : ps.mapM _path_to_c_string = .error e) : e = .FfiNulError := by
  by_cases hn : ∃ p ∈ ps, 0 ∈ p
  · rw [mapM_paths_nul ps hn] at h
    exact (Except.error.inj h).symm
  · rw [mapM_paths_ok ps (by push_neg at hn; exact hn)] at h
    exact absurd h (by simp)

/-- Arguments free of null bytes pass through `CString::new` unchanged. -/
theorem mapM_cstring_ok (ps : List Bytes) (h : ∀ p ∈ ps, 0 ∉ p) :
    ps.mapM CString.new = .ok ps := by
  have he : CString.new = _path_to_c_string := rfl
  rw [he]
  exact mapM_paths_ok ps h

/-- An argument with a null byte makes `CString::new` conversion fail with
the encoding error. -/
theorem mapM_cstring_nul (ps : List Bytes) (h : ∃ p ∈ ps, 0 ∈ p) :
    ps.mapM CString.new = .error .FfiNulError := by
  have he : CString.new = _path_to_c_string := rfl
  rw [he]
  exact mapM_paths_nul ps h

/-- The drop-glue events never contain an engine call. -/
theorem engineCall_not_mem_dropOpt (args : EngineArgs)
    (options : Option BuildVRTOptions) :
    Event.engineCall args ∉ dropOptEvents options := by
  cases options <;> simp [dropOptEvents]

/-- An engine call recorded in the trace of `_build_vrt` fixes its arguments:
both conversions succeeded and the call carried exactly the converted
destination, the marshalled sources and the resolved options pointer. -/
theorem mem_trace_engineCall (eng : Engine) (dest : Option Bytes)
    (spec : DSSpec) (options : Option BuildVRTOptions) (args : EngineArgs)
    (h : Event.engineCall args ∈ (_build_vrt eng dest spec options).2) :
    ∃ c_dest n hs ns, destToC dest = .ok c_dest ∧
      marshalSources spec = .ok (n, hs, ns) ∧
      args = ⟨c_dest, n, hs, ns, (options.map BuildVRTOptions.c_options).getD 0⟩ := by
  unfold _build_vrt at h
  rcases hd : destToC dest with e | c_dest
  · rw [hd] at h
    exact absurd h (engineCall_not_mem_dropOpt args options)
  · rw [hd] at h
    rcases hm : marshalSources spec with e | ⟨n, hs, ns⟩
    · rw [hm] at h
      exact absurd h (engineCall_not_mem_dropOpt args options)
    · rw [hm] at h
      dsimp only at h
      rcases he : eng.buildVRT ⟨c_dest, n, hs, ns,
          (options.map BuildVRTOptions.c_options).getD 0⟩ with ⟨r, msg⟩
      rw [he] at h
      refine ⟨c_dest, n, hs, ns, rfl, rfl, ?_⟩
      cases r with
      | none =>
        dsimp only at h
        exact Event.engineCall.inj ((List.mem_cons.mp h).resolve_right
          (engineCall_not_mem_dropOpt args options))
      | some hdl =>
        dsimp only at h
        exact Event.engineCall.inj ((List.mem_cons.mp h).resolve_right
          (engineCall_not_mem_dropOpt args options))

/-- A successful path-list conversion returns the paths unchanged. -/
theorem mapM_paths_ok_eq (ps qs : List Bytes)
    (h : ps.mapM _path_to_c_string = .ok qs) : qs = ps := by
  by_cases hn : ∃ p ∈ ps, 0 ∈ p
  · rw [mapM_paths_nul ps hn] at h
    cases h
  · rw [mapM_paths_ok ps (by push_neg at hn; exact hn)] at h
    exact (Except.ok.inj h).symm

/-- When both conversions succeed, `_build_vrt` reaches the engine and the
call it records carries the converted destination, the marshalled sources
and the resolved options pointer. -/
theorem build_vrt_reaches_engine (eng : Engine) (dest : Option Bytes)
    (spec : DSSpec) (options : Option BuildVRTOptions)
    (c_dest : Option Bytes) (n : Nat) (hs : Option (List Nat))
    (ns : Option (List Bytes))
    (hd : destToC dest = .ok c_dest)
    (hm : marshalSources spec = .ok (n, hs, ns)) :
    (_build_vrt eng dest spec options).2 =
      Event.engineCall ⟨c_dest, n, hs, ns,
        (options.map BuildVRTOptions.c_options).getD 0⟩ :: dropOptEvents options ∧
    ((eng.buildVRT ⟨c_dest, n, hs, ns,
        (options.map BuildVRTOptions.c_options).getD 0⟩).1 = none →
      (_build_vrt eng dest spec options).1 =
        .error (.NullPointer "GDALBuildVRT"
          (eng.buildVRT ⟨c_dest, n, hs, ns,
            (options.map BuildVRTOptions.c_options).getD 0⟩).2)) ∧
    (∀ hdl, (eng.buildVRT ⟨c_dest, n, hs, ns,
        (options.map BuildVRTOptions.c_options).getD 0⟩).1 = some hdl →
      (_build_vrt eng dest spec options).1 =
        .ok (Dataset.from_c_dataset hdl)) := by
  unfold _build_vrt
  rw [hd, hm]
  dsimp only
  rcases he : eng.buildVRT ⟨c_dest, n, hs, ns,
      (options.map BuildVRTOptions.c_options).getD 0⟩ with ⟨r, msg⟩
  cases r with
  | none => simp
  | some hdl => simp

/-- A failing destination conversion makes `_build_vrt` return that error at
once, with only the drop-glue events in the trace. -/
theorem build_vrt_dest_fail (eng : Engine) (dest : Option Bytes)
    (spec : DSSpec) (options : Option BuildVRTOptions) (e : GdalError)
    (hd : destToC dest = .error e) :
    _build_vrt eng dest spec options = (.error e, dropOptEvents options) := by
  unfold _build_vrt
  rw [hd]

/-- A failing source marshalling makes `_build_vrt` return that error at
once, with only the drop-glue events in the trace. -/
theorem build_vrt_marshal_fail (eng : Engine) (dest : Option Bytes)
    (spec : DSSpec) (options : Option BuildVRTOptions)
    (c_dest : Option Bytes) (e : GdalError)
    (hd : destToC dest = .ok c_dest) (hm : marshalSources spec = .error e) :
    _build_vrt eng dest spec options = (.error e, dropOptEvents options) := by
  unfold _build_vrt
  rw [hd, hm]

/-!
## Claim theorems: the mosaic builder
-/

/-- C1. Every engine call a mosaic build records passes exactly one of the
two source arrays as non-null: `build_vrt` passes the dataset handles and a
null name array, `build_vrt_from_paths` passes the converted names and a null
handle array, and in both cases the count is the length of the chosen list. -/
theorem buildVRT_call_exclusive_arrays (eng : Engine) (dest : Option Bytes)
    (options : Option BuildVRTOptions) :
    (∀ (datasets : List Dataset) (args : EngineArgs),
        Event.engineCall args ∈ (build_vrt eng dest datasets options).2 →
        args.srcDatasets = some (datasets.map Dataset.c_dataset) ∧
        args.srcDatasetNames = none ∧
        args.srcCount = datasets.length) ∧
    (∀ (paths : List Bytes) (args : EngineArgs),
        Event.engineCall args ∈ (build_vrt_from_paths eng dest paths options).2 →
        args.srcDatasets = none ∧
        args.srcDatasetNames = some paths ∧
        args.srcCount = paths.length) := by
  constructor
  · intro datasets args h
    obtain ⟨c_dest, n, hs, ns, hd, hm, rfl⟩ :=
      mem_trace_engineCall eng dest (.DS datasets) options args h
    simp only [marshalSources, Except.ok.injEq, Prod.mk.injEq] at hm
    obtain ⟨hn, hhs, hns⟩ := hm
    subst hn hhs hns
    simp
  · intro paths args h
    obtain ⟨c_dest, n, hs, ns, hd, hm, rfl⟩ :=
      mem_trace_engineCall eng dest (.Path paths) options args h
    rcases hmm : paths.mapM _path_to_c_string with e | c_paths
    · rw [marshalSources, hmm] at hm
      cases hm
    · rw [marshalSources, hmm] at hm
      simp only [except_bind_ok, Except.ok.injEq, Prod.mk.injEq] at hm
      obtain ⟨hn, hhs, hns⟩ := hm
      subst hn hhs hns
      have := mapM_paths_ok_eq paths c_paths hmm
      subst this
      simp

/-- Destination conversion fails exactly on an embedded null byte, and the
error is always the encoding error. -/
theorem destToC_error_iff (dest : Option Bytes) (e : GdalError) :
    destToC dest = .error e ↔
      e = .FfiNulError ∧ ∃ p, dest = some p ∧ 0 ∈ p := by
  cases dest with
  | none => simp [destToC]
  | some p =>
    by_cases hp : 0 ∈ p
    · simp [destToC, _path_to_c_string, hp, Except.map]
      exact eq_comm
    · simp [destToC, _path_to_c_string, hp, Except.map]

/-- Source marshalling fails exactly in identifier mode with an embedded null
byte, and the error is always the encoding error. -/
theorem marshalSources_error_iff (spec : DSSpec) (e : GdalError) :
    marshalSources spec = .error e ↔
      e = .FfiNulError ∧ ∃ ps, spec = DSSpec.Path ps ∧ ∃ p ∈ ps, 0 ∈ p := by
  cases spec with
  | DS datasets => simp [marshalSources]
  | Path ps =>
    by_cases hn : ∃ p ∈ ps, 0 ∈ p
    · rw [marshalSources, mapM_paths_nul ps hn]
      simp [hn]
      exact eq_comm
    · rw [marshalSources, mapM_paths_ok ps (by push_neg at hn; exact hn)]
      simp [hn]

/-- The mosaic build received a string with an embedded null byte: either in
the destination path or, in identifier mode, in one of the source paths. -/
def hasNulInput (dest : Option Bytes) (spec : DSSpec) : Prop :=
  (∃ p, dest = some p ∧ 0 ∈ p) ∨
  (∃ ps, spec = DSSpec.Path ps ∧ ∃ p ∈ ps, 0 ∈ p)

/-- C2. An embedded null byte in any argument of the configuration
constructor, or in the destination path or a source identifier of the mosaic
build, fails the operation with the encoding error; without such a byte no
encoding error is ever produced (the constructor then succeeds outright, and
the build can only fail with the engine error). -/
theorem nul_byte_encoding_error_iff (eng : Engine) :
    (∀ args : List Bytes,
        (BuildVRTOptions.new eng args = .error .FfiNulError ↔
          ∃ a ∈ args, 0 ∈ a) ∧
        ((∀ a ∈ args, 0 ∉ a) →
          BuildVRTOptions.new eng args = .ok ⟨eng.buildVRTOptionsNew args⟩)) ∧
    (∀ (dest : Option Bytes) (spec : DSSpec) (options : Option BuildVRTOptions),
        (_build_vrt eng dest spec options).1 = .error .FfiNulError ↔
          hasNulInput dest spec) := by
  constructor
  · intro args
    constructor
    · constructor
      · intro h
        by_contra hn
        push_neg at hn
        rw [BuildVRTOptions.new, mapM_cstring_ok args hn] at h
        simp at h
      · intro h
        rw [BuildVRTOptions.new, mapM_cstring_nul args h]
        rfl
    · intro h
      rw [BuildVRTOptions.new, mapM_cstring_ok args h]
      rfl
  · intro dest spec options
    constructor
    · intro h
      rcases hd : destToC dest with e | c_dest
      · obtain ⟨-, p, hp, hp0⟩ := (destToC_error_iff dest e).mp hd
        exact Or.inl ⟨p, hp, hp0⟩
      · rcases hm : marshalSources spec with e | ⟨n, hs, ns⟩
        · obtain ⟨-, ps, hps, hnul⟩ := (marshalSources_error_iff spec e).mp hm
          exact Or.inr ⟨ps, hps, hnul⟩
        · obtain ⟨-, h2, h3⟩ :=
            build_vrt_reaches_engine eng dest spec options c_dest n hs ns hd hm
          rcases he : (eng.buildVRT ⟨c_dest, n, hs, ns,
              (options.map BuildVRTOptions.c_options).getD 0⟩).1 with _ | hdl
          · rw [h2 he] at h
            cases h
          · rw [h3 hdl he] at h
            cases h
    · intro h
      rcases h with ⟨p, hp, hp0⟩ | ⟨ps, hps, hnul⟩
      · subst hp
        have hd : destToC (some p) = .error .FfiNulError :=
          (destToC_error_iff (some p) .FfiNulError).mpr ⟨rfl, p, rfl, hp0⟩
        rw [build_vrt_dest_fail eng (some p) spec options .FfiNulError hd]
      · subst hps
        rcases hd : destToC dest with e | c_dest
        · obtain ⟨he, -⟩ := (destToC_error_iff dest e).mp hd
          subst he
          rw [build_vrt_dest_fail eng dest (.Path ps) options .FfiNulError hd]
        · have hm : marshalSources (.Path ps) = .error .FfiNulError :=
            (marshalSources_error_iff (.Path ps) .FfiNulError).mpr
              ⟨rfl, ps, rfl, hnul⟩
          rw [build_vrt_marshal_fail eng dest (.Path ps) options c_dest
            .FfiNulError hd hm]

/-- C3. When the engine's composition call returns a null result, the build
fails with the engine error carrying the diagnostic message the engine
reports after that call, and no dataset is returned. -/
theorem null_result_engine_error (eng : Engine) (dest : Option Bytes)
    (spec : DSSpec) (options : Option BuildVRTOptions) (args : EngineArgs)
    (hcall : Event.engineCall args ∈ (_build_vrt eng dest spec options).2)
    (hnull : (eng.buildVRT args).1 = none) :
    (_build_vrt eng dest spec options).1 =
      .error (.NullPointer "GDALBuildVRT" (eng.buildVRT args).2) := by
  obtain ⟨c_dest, n, hs, ns, hd, hm, rfl⟩ :=
    mem_trace_engineCall eng dest spec options args hcall
  obtain ⟨-, h2, -⟩ :=
    build_vrt_reaches_engine eng dest spec options c_dest n hs ns hd hm
  exact h2 hnull

/-- A test engine whose composition call always fails with diagnostic
message "boom" and whose configuration constructor returns the null
pointer. -/
def engineAlwaysNull : Engine := ⟨fun _ => 0, fun _ => (none, "boom")⟩

/-- Witness for C3: a concrete failing build carries the engine's message. -/
theorem null_result_engine_error_witness :
    (_build_vrt engineAlwaysNull none (.DS []) none).1 =
      .error (.NullPointer "GDALBuildVRT" "boom") :=
  null_result_engine_error engineAlwaysNull none (.DS []) none
    ⟨none, 0, some [], none, 0⟩ (by decide) rfl

/-- C4. When the destination or a source identifier fails to convert, the
whole build fails with the encoding error, only the drop-glue events appear
in the trace, and the engine is never called — so no dataset exists. -/
theorem encoding_failure_before_engine (eng : Engine) (dest : Option Bytes)
    (spec : DSSpec) (options : Option BuildVRTOptions)
    (h : hasNulInput dest spec) :
    (_build_vrt eng dest spec options).1 = .error .FfiNulError ∧
    (_build_vrt eng dest spec options).2 = dropOptEvents options ∧
    ∀ args : EngineArgs,
      Event.engineCall args ∉ (_build_vrt eng dest spec options).2 := by
  have hpair : _build_vrt eng dest spec options =
      (.error .FfiNulError, dropOptEvents options) := by
    rcases h with ⟨p, hp, hp0⟩ | ⟨ps, hps, hnul⟩
    · subst hp
      exact build_vrt_dest_fail eng (some p) spec options .FfiNulError
        ((destToC_error_iff (some p) .FfiNulError).mpr ⟨rfl, p, rfl, hp0⟩)
    · subst hps
      rcases hd : destToC dest with e | c_dest
      · obtain ⟨he, -⟩ := (destToC_error_iff dest e).mp hd
        subst he
        exact build_vrt_dest_fail eng dest (.Path ps) options .FfiNulError hd
      · exact build_vrt_marshal_fail eng dest (.Path ps) options c_dest
          .FfiNulError hd ((marshalSources_error_iff (.Path ps)
            .FfiNulError).mpr ⟨rfl, ps, rfl, hnul⟩)
  refine ⟨by rw [hpair], by rw [hpair], fun args => ?_⟩
  rw [hpair]
  exact engineCall_not_mem_dropOpt args options

/-- Witness for C4: a null byte in the destination fails the build before
any engine call. -/
theorem encoding_failure_before_engine_witness :
    (_build_vrt engineAlwaysNull (some [0]) (.DS []) none).1 =
      .error .FfiNulError ∧
    (_build_vrt engineAlwaysNull (some [0]) (.DS []) none).2 =
      dropOptEvents none ∧
    ∀ args : EngineArgs,
      Event.engineCall args ∉
        (_build_vrt engineAlwaysNull (some [0]) (.DS []) none).2 :=
  encoding_failure_before_engine engineAlwaysNull (some [0]) (.DS []) none
    (Or.inl ⟨[0], rfl, by decide⟩)

/-- C8. The native options object wrapped by a handle passed to a build is
released exactly once, as the last event of the build, on every exit path:
the trace ends with its single release event and holds no earlier release. -/
theorem options_freed_exactly_once (eng : Engine) (dest : Option Bytes)
    (spec : DSSpec) (o : BuildVRTOptions) :
    ∃ pre, (_build_vrt eng dest spec (some o)).2 =
        pre ++ [Event.freeOptions o.c_options] ∧
      ∀ q : Nat, Event.freeOptions q ∉ pre := by
  rcases hd : destToC dest with e | c_dest
  · rw [build_vrt_dest_fail eng dest spec (some o) e hd]
    exact ⟨[], rfl, by simp⟩
  · rcases hm : marshalSources spec with e | ⟨n, hs, ns⟩
    · rw [build_vrt_marshal_fail eng dest spec (some o) c_dest e hd hm]
      exact ⟨[], rfl, by simp⟩
    · obtain ⟨h1, -, -⟩ :=
        build_vrt_reaches_engine eng dest spec (some o) c_dest n hs ns hd hm
      rw [h1]
      exact ⟨[Event.engineCall ⟨c_dest, n, hs, ns,
        ((some o).map BuildVRTOptions.c_options).getD 0⟩], rfl, by simp⟩

/-- C9. With no embedded null byte among the arguments,
`BuildVRTOptions::new` succeeds for every engine, wrapping whatever pointer
the engine's constructor returned — the pointer is never checked, so even a
null configuration object is wrapped in an `Ok` handle. -/
theorem options_new_unchecked (eng : Engine) (args : List Bytes)
    (h : ∀ a ∈ args, 0 ∉ a) :
    BuildVRTOptions.new eng args = .ok ⟨eng.buildVRTOptionsNew args⟩ := by
  rw [BuildVRTOptions.new, mapM_cstring_ok args h]
  rfl

/-- Witness for C9: the always-null constructor still yields an `Ok` handle
wrapping the null pointer. -/
theorem options_new_unchecked_witness :
    BuildVRTOptions.new engineAlwaysNull [[65], [66]] = .ok ⟨0⟩ :=
  options_new_unchecked engineAlwaysNull [[65], [66]] (by decide)

/-- C10. A build by handle with no destination performs no string
conversion, so its only possible failure is the engine error from a null
engine result. -/
theorem by_handle_no_encoding_error (eng : Engine) (datasets : List Dataset)
    (options : Option BuildVRTOptions) (e : GdalError)
    (h : (build_vrt eng none datasets options).1 = .error e) :
    ∃ msg, e = .NullPointer "GDALBuildVRT" msg := by
  have hd : destToC none = .ok none := rfl
  have hm : marshalSources (.DS datasets) =
      .ok (datasets.length, some (datasets.map Dataset.c_dataset), none) := by
    simp [marshalSources]
  obtain ⟨-, h2, h3⟩ := build_vrt_reaches_engine eng none (.DS datasets)
    options none datasets.length (some (datasets.map Dataset.c_dataset))
    none hd hm
  unfold build_vrt at h
  rcases he : (eng.buildVRT ⟨none, datasets.length,
      some (datasets.map Dataset.c_dataset), none,
      (options.map BuildVRTOptions.c_options).getD 0⟩).1 with _ | hdl
  · rw [h2 he] at h
    exact ⟨_, (Except.error.inj h).symm⟩
  · rw [h3 hdl he] at h
    cases h

/-- Witness for C10: the only failure of a concrete by-handle build without
destination is the engine error. -/
theorem by_handle_no_encoding_error_witness :
    ∃ msg, (GdalError.NullPointer "GDALBuildVRT" "boom" : GdalError) =
      .NullPointer "GDALBuildVRT" msg :=
  by_handle_no_encoding_error engineAlwaysNull [] none
    (.NullPointer "GDALBuildVRT" "boom") rfl

/-!
## Helper lemmas: the geometry comparator
-/

/-- The tolerance is positive. -/
theorem EPSILON_pos : 0 < EPSILON := by norm_num [EPSILON]

/-- The comparator accepts any geometry against itself (via the structural
fast path). -/
theorem age_refl (g : Geometry) : assert_geom_equivalence g g = .ok () := by
  cases g with
  | node t n ch ps => rw [assert_geom_equivalence]; simp

/-- The child loop accepts any child list against itself. -/
theorem checkChildren_refl (l : List Geometry) : checkChildren l l = .ok () := by
  induction l with
  | nil => rfl
  | cons c cs ih => rw [checkChildren]; simp [age_refl c, ih]

/-- A single axis check succeeds exactly when the absolute difference is
strictly below the tolerance. -/
theorem check_dist_ok_iff (e t : ℚ) (n : Char) (i : Nat) :
    check_dist e t n i = .ok () ↔ |e - t| < EPSILON := by
  rw [check_dist]
  split <;> simp_all

/-- A single axis check fails exactly when the absolute difference reaches
the tolerance, and then reports that axis and index. -/
theorem check_dist_error_iff (e t : ℚ) (n : Char) (i : Nat) (m : GeomMismatch) :
    check_dist e t n i = .error m ↔
      m = .coordMismatch n i ∧ EPSILON ≤ |e - t| := by
  rw [check_dist]
  split <;> rename_i h
  · simp [h]
  · simp [le_of_not_lt h]
    exact eq_comm

/-- One coordinate triple is within tolerance of another: every axis
differs by strictly less than `EPSILON`. -/
def tripleNear (p q : ℚ × ℚ × ℚ) : Prop :=
  |p.1 - q.1| < EPSILON ∧ |p.2.1 - q.2.1| < EPSILON ∧ |p.2.2 - q.2.2| < EPSILON

/-- The coordinate loop accepts two equally long point lists exactly when
every pair of triples is within tolerance on every axis. -/
theorem checkPoints_ok_iff (k : Nat) (ps qs : List (ℚ × ℚ × ℚ))
    (hlen : ps.length = qs.length) :
    checkPoints k ps qs = .ok () ↔ List.Forall₂ tripleNear ps qs := by
  induction ps generalizing k qs with
  | nil =>
    cases qs with
    | nil => simp [checkPoints]
    | cons q qs => simp at hlen
  | cons p ps ih =>
    cases qs with
    | nil => simp at hlen
    | cons q qs =>
      obtain ⟨x1, y1, z1⟩ := p
      obtain ⟨x2, y2, z2⟩ := q
      simp only [List.length_cons, Nat.succ.injEq] at hlen
      rw [checkPoints]
      by_cases hx : |x1 - x2| < EPSILON
      · rw [(check_dist_ok_iff x1 x2 'x' k).mpr hx]
        by_cases hy : |y1 - y2| < EPSILON
        · rw [except_bind_ok, (check_dist_ok_iff y1 y2 'y' k).mpr hy]
          by_cases hz : |z1 - z2| < EPSILON
          · rw [except_bind_ok, (check_dist_ok_iff z1 z2 'z' k).mpr hz,
              except_bind_ok]
            simp [List.forall₂_cons, tripleNear, hx, hy, hz, ih (k + 1) qs hlen]
          · have hze : check_dist z1 z2 'z' k = .error (.coordMismatch 'z' k) := by
              rw [check_dist]
              simp [hz]
            rw [except_bind_ok, hze, except_bind_error]
            simp [List.forall₂_cons, tripleNear, hz]
        · have hye : check_dist y1 y2 'y' k = .error (.coordMismatch 'y' k) := by
            rw [check_dist]
            simp [hy]
          rw [except_bind_ok, hye, except_bind_error]
          simp [List.forall₂_cons, tripleNear, hy]
      · have hxe : check_dist x1 x2 'x' k = .error (.coordMismatch 'x' k) := by
          rw [check_dist]
          simp [hx]
        rw [hxe, except_bind_error]
        simp [List.forall₂_cons, tripleNear, hx]

/-- A failing coordinate loop pinpoints an axis and a point index at which
the absolute difference reaches the tolerance (indices counted from `k`). -/
theorem checkPoints_error (k : Nat) (ps qs : List (ℚ × ℚ × ℚ))
    (m : GeomMismatch) (h : checkPoints k ps qs = .error m) :
    ∃ j, ∃ (h1 : j < ps.length) (h2 : j < qs.length),
      (m = .coordMismatch 'x' (k + j) ∧
        EPSILON ≤ |(ps.get ⟨j, h1⟩).1 - (qs.get ⟨j, h2⟩).1|) ∨
      (m = .coordMismatch 'y' (k + j) ∧
        EPSILON ≤ |(ps.get ⟨j, h1⟩).2.1 - (qs.get ⟨j, h2⟩).2.1|) ∨
      (m = .coordMismatch 'z' (k + j) ∧
        EPSILON ≤ |(ps.get ⟨j, h1⟩).2.2 - (qs.get ⟨j, h2⟩).2.2|) := by
  induction ps generalizing k qs with
  | nil => simp [checkPoints] at h
  | cons p ps ih =>
    cases qs with
    | nil =>
      obtain ⟨x1, y1, z1⟩ := p
      simp [checkPoints] at h
    | cons q qs =>
      obtain ⟨x1, y1, z1⟩ := p
      obtain ⟨x2, y2, z2⟩ := q
      rw [checkPoints] at h
      by_cases hx : |x1 - x2| < EPSILON
      · rw [(check_dist_ok_iff x1 x2 'x' k).mpr hx, except_bind_ok] at h
        by_cases hy : |y1 - y2| < EPSILON
        · rw [(check_dist_ok_iff y1 y2 'y' k).mpr hy, except_bind_ok] at h
          by_cases hz : |z1 - z2| < EPSILON
          · rw [(check_dist_ok_iff z1 z2 'z' k).mpr hz, except_bind_ok] at h
            obtain ⟨j, h1, h2, hc⟩ := ih (k + 1) qs h
            refine ⟨j + 1, Nat.succ_lt_succ h1, Nat.succ_lt_succ h2, ?_⟩
            have hk : k + 1 + j = k + (j + 1) := by omega
            simpa [hk] using hc
          · have hze : check_dist z1 z2 'z' k =
                .error (.coordMismatch 'z' k) := by
              rw [check_dist]
              simp [hz]
            rw [hze, except_bind_error] at h
            obtain rfl : GeomMismatch.coordMismatch 'z' k = m := Except.error.inj h
            exact ⟨0, Nat.succ_pos _, Nat.succ_pos _,
              Or.inr (Or.inr ⟨by simp, le_of_not_lt hz⟩)⟩
        · have hye : check_dist y1 y2 'y' k =
              .error (.coordMismatch 'y' k) := by
            rw [check_dist]
            simp [hy]
          rw [hye, except_bind_error] at h
          obtain rfl : GeomMismatch.coordMismatch 'y' k = m := Except.error.inj h
          exact ⟨0, Nat.succ_pos _, Nat.succ_pos _,
            Or.inr (Or.inl ⟨by simp, le_of_not_lt hy⟩)⟩
      · have hxe : check_dist x1 x2 'x' k =
            .error (.coordMismatch 'x' k) := by
          rw [check_dist]
          simp [hx]
        rw [hxe, except_bind_error] at h
        obtain rfl : GeomMismatch.coordMismatch 'x' k = m := Except.error.inj h
        exact ⟨0, Nat.succ_pos _, Nat.succ_pos _,
          Or.inl ⟨by simp, le_of_not_lt hx⟩⟩

/-- For two leaves with matching tag, name and point count, the comparator
reduces to the coordinate loop. -/
theorem age_leaf_eq_checkPoints (t : Nat) (nm : String)
    (pts1 pts2 : List (ℚ × ℚ × ℚ)) (hlen : pts1.length = pts2.length) :
    assert_geom_equivalence (.node t nm [] pts1) (.node t nm [] pts2) =
      checkPoints 0 pts1 pts2 := by
  by_cases heq : pts1 = pts2
  · subst heq
    rw [age_refl]
    symm
    rw [checkPoints_ok_iff 0 pts1 pts1 rfl]
    exact List.forall₂_same.mpr fun p _ => by simp [tripleNear, EPSILON_pos]
  · rw [assert_geom_equivalence]
    have hne : Geometry.node t nm [] pts1 ≠ Geometry.node t nm [] pts2 := by
      intro hh
      injection hh
      contradiction
    simp [hne, Geometry.geometry_type, Geometry.geometry_name,
      Geometry.geometry_count, Geometry.point_count, Geometry.children,
      Geometry.points, hlen]

/-!
## Claim theorems: the geometry comparator
-/

/-- C5. Two leaves that pass the structural checks are equivalent exactly
when every axis of every point differs by strictly less than `1e-8`; a
failure names an axis and point index at which the difference reaches the
tolerance. -/
theorem leaf_tolerance_iff (t : Nat) (nm : String)
    (pts1 pts2 : List (ℚ × ℚ × ℚ)) (hlen : pts1.length = pts2.length) :
    (assert_geom_equivalence (.node t nm [] pts1) (.node t nm [] pts2) =
        .ok () ↔
      ∀ i (h1 : i < pts1.length) (h2 : i < pts2.length),
        |(pts1.get ⟨i, h1⟩).1 - (pts2.get ⟨i, h2⟩).1| < EPSILON ∧
        |(pts1.get ⟨i, h1⟩).2.1 - (pts2.get ⟨i, h2⟩).2.1| < EPSILON ∧
        |(pts1.get ⟨i, h1⟩).2.2 - (pts2.get ⟨i, h2⟩).2.2| < EPSILON) ∧
    (∀ m, assert_geom_equivalence (.node t nm [] pts1) (.node t nm [] pts2) =
        .error m →
      ∃ j, ∃ (h1 : j < pts1.length) (h2 : j < pts2.length),
        (m = .coordMismatch 'x' j ∧
          EPSILON ≤ |(pts1.get ⟨j, h1⟩).1 - (pts2.get ⟨j, h2⟩).1|) ∨
        (m = .coordMismatch 'y' j ∧
          EPSILON ≤ |(pts1.get ⟨j, h1⟩).2.1 - (pts2.get ⟨j, h2⟩).2.1|) ∨
        (m = .coordMismatch 'z' j ∧
          EPSILON ≤ |(pts1.get ⟨j, h1⟩).2.2 - (pts2.get ⟨j, h2⟩).2.2|)) := by
  rw [age_leaf_eq_checkPoints t nm pts1 pts2 hlen]
  constructor
  · rw [checkPoints_ok_iff 0 pts1 pts2 hlen, List.forall₂_iff_get]
    unfold tripleNear
    simp [hlen]
  · intro m hm
    obtain ⟨j, h1, h2, hc⟩ := checkPoints_error 0 pts1 pts2 m hm
    exact ⟨j, h1, h2, by simpa using hc⟩

/-- Witness for C5: the tolerance characterization at a concrete pair of
single-point leaves. -/
theorem leaf_tolerance_iff_witness :
    (assert_geom_equivalence (.node 1 "POINT" [] [(1, 2, 0)])
        (.node 1 "POINT" [] [(3, 2, 0)]) = .ok () ↔
      ∀ i (h1 : i < [((1 : ℚ), (2 : ℚ), (0 : ℚ))].length)
          (h2 : i < [((3 : ℚ), (2 : ℚ), (0 : ℚ))].length),
        |([((1 : ℚ), (2 : ℚ), (0 : ℚ))].get ⟨i, h1⟩).1 -
            ([((3 : ℚ), (2 : ℚ), (0 : ℚ))].get ⟨i, h2⟩).1| < EPSILON ∧
        |([((1 : ℚ), (2 : ℚ), (0 : ℚ))].get ⟨i, h1⟩).2.1 -
            ([((3 : ℚ), (2 : ℚ), (0 : ℚ))].get ⟨i, h2⟩).2.1| < EPSILON ∧
        |([((1 : ℚ), (2 : ℚ), (0 : ℚ))].get ⟨i, h1⟩).2.2 -
            ([((3 : ℚ), (2 : ℚ), (0 : ℚ))].get ⟨i, h2⟩).2.2| < EPSILON) ∧
    (∀ m, assert_geom_equivalence (.node 1 "POINT" [] [(1, 2, 0)])
        (.node 1 "POINT" [] [(3, 2, 0)]) = .error m →
      ∃ j, ∃ (h1 : j < [((1 : ℚ), (2 : ℚ), (0 : ℚ))].length)
          (h2 : j < [((3 : ℚ), (2 : ℚ), (0 : ℚ))].length),
        (m = .coordMismatch 'x' j ∧
          EPSILON ≤ |([((1 : ℚ), (2 : ℚ), (0 : ℚ))].get ⟨j, h1⟩).1 -
            ([((3 : ℚ), (2 : ℚ), (0 : ℚ))].get ⟨j, h2⟩).1|) ∨
        (m = .coordMismatch 'y' j ∧
          EPSILON ≤ |([((1 : ℚ), (2 : ℚ), (0 : ℚ))].get ⟨j, h1⟩).2.1 -
            ([((3 : ℚ), (2 : ℚ), (0 : ℚ))].get ⟨j, h2⟩).2.1|) ∨
        (m = .coordMismatch 'z' j ∧
          EPSILON ≤ |([((1 : ℚ), (2 : ℚ), (0 : ℚ))].get ⟨j, h1⟩).2.2 -
            ([((3 : ℚ), (2 : ℚ), (0 : ℚ))].get ⟨j, h2⟩).2.2|)) :=
  leaf_tolerance_iff 1 "POINT" [(1, 2, 0)] [(3, 2, 0)] rfl

/-- C6. On structurally distinct geometries the comparator checks type tag,
type name, child count and point count in this order, failing fast with the
matching mismatch; with children present it reduces to the pairwise child
recursion and never touches the container's own coordinates; differing child
counts are never equivalent, whatever the coordinates. -/
theorem structural_checks_order (g1 g2 : Geometry) :
    (g1.geometry_type ≠ g2.geometry_type →
      assert_geom_equivalence g1 g2 = .error .typeMismatch) ∧
    (g1.geometry_type = g2.geometry_type →
      g1.geometry_name ≠ g2.geometry_name →
      assert_geom_equivalence g1 g2 = .error .nameMismatch) ∧
    (g1.geometry_type = g2.geometry_type →
      g1.geometry_name = g2.geometry_name →
      g1.geometry_count ≠ g2.geometry_count →
      assert_geom_equivalence g1 g2 = .error .countMismatch) ∧
    (g1.geometry_type = g2.geometry_type →
      g1.geometry_name = g2.geometry_name →
      g1.geometry_count = g2.geometry_count →
      g1.point_count ≠ g2.point_count →
      assert_geom_equivalence g1 g2 = .error .pointCountMismatch) ∧
    (g1.geometry_type = g2.geometry_type →
      g1.geometry_name = g2.geometry_name →
      g1.geometry_count = g2.geometry_count →
      g1.point_count = g2.point_count →
      0 < g1.geometry_count →
      assert_geom_equivalence g1 g2 =
        checkChildren g1.children g2.children) ∧
    (g1.geometry_count ≠ g2.geometry_count →
      assert_geom_equivalence g1 g2 ≠ .ok ()) := by
  obtain ⟨t1, n1, ch1, ps1⟩ := g1
  obtain ⟨t2, n2, ch2, ps2⟩ := g2
  have H1 : t1 ≠ t2 →
      assert_geom_equivalence (.node t1 n1 ch1 ps1) (.node t2 n2 ch2 ps2) =
        .error .typeMismatch := by
    intro ht
    have hne : Geometry.node t1 n1 ch1 ps1 ≠ Geometry.node t2 n2 ch2 ps2 :=
      fun hh => ht (congrArg Geometry.geometry_type hh)
    rw [assert_geom_equivalence]
    simp [hne, Geometry.geometry_type, ht]
  have H2 : t1 = t2 → n1 ≠ n2 →
      assert_geom_equivalence (.node t1 n1 ch1 ps1) (.node t2 n2 ch2 ps2) =
        .error .nameMismatch := by
    intro ht hn
    subst ht
    have hne : Geometry.node t1 n1 ch1 ps1 ≠ Geometry.node t1 n2 ch2 ps2 :=
      fun hh => hn (congrArg Geometry.geometry_name hh)
    rw [assert_geom_equivalence]
    simp [hne, Geometry.geometry_type, Geometry.geometry_name, hn]
  have H3 : t1 = t2 → n1 = n2 → ch1.length ≠ ch2.length →
      assert_geom_equivalence (.node t1 n1 ch1 ps1) (.node t2 n2 ch2 ps2) =
        .error .countMismatch := by
    intro ht hn hc
    subst ht
    subst hn
    have hne : Geometry.node t1 n1 ch1 ps1 ≠ Geometry.node t1 n1 ch2 ps2 :=
      fun hh => hc (congrArg Geometry.geometry_count hh)
    rw [assert_geom_equivalence]
    simp [hne, Geometry.geometry_type, Geometry.geometry_name,
      Geometry.geometry_count, Geometry.children, hc]
  have H4 : t1 = t2 → n1 = n2 → ch1.length = ch2.length →
      (Geometry.node t1 n1 ch1 ps1).point_count ≠
        (Geometry.node t2 n2 ch2 ps2).point_count →
      assert_geom_equivalence (.node t1 n1 ch1 ps1) (.node t2 n2 ch2 ps2) =
        .error .pointCountMismatch := by
    intro ht hn hc hp
    subst ht
    subst hn
    have hne : Geometry.node t1 n1 ch1 ps1 ≠ Geometry.node t1 n1 ch2 ps2 :=
      fun hh => hp (congrArg Geometry.point_count hh)
    rw [assert_geom_equivalence]
    simp [hne, Geometry.geometry_type, Geometry.geometry_name,
      Geometry.geometry_count, Geometry.children, hc, hp]
  have H5 : t1 = t2 → n1 = n2 → ch1.length = ch2.length →
      (Geometry.node t1 n1 ch1 ps1).point_count =
        (Geometry.node t2 n2 ch2 ps2).point_count →
      0 < ch1.length →
      assert_geom_equivalence (.node t1 n1 ch1 ps1) (.node t2 n2 ch2 ps2) =
        checkChildren ch1 ch2 := by
    intro ht hn hc hp h0
    subst ht
    subst hn
    by_cases heq : Geometry.node t1 n1 ch1 ps1 = Geometry.node t1 n1 ch2 ps2
    · injection heq with e1 e2 e3 e4
      subst e3
      subst e4
      rw [age_refl, checkChildren_refl]
    · rw [assert_geom_equivalence]
      simp [heq, Geometry.geometry_type, Geometry.geometry_name,
        Geometry.geometry_count, Geometry.children, hc, hp, h0]
      intro hh
      exfalso
      rw [hh] at hc
      simp only [List.length_nil] at hc
      omega
  have H6 : ch1.length ≠ ch2.length →
      assert_geom_equivalence (.node t1 n1 ch1 ps1) (.node t2 n2 ch2 ps2) ≠
        .ok () := by
    intro hc
    by_cases ht : t1 = t2
    · by_cases hn : n1 = n2
      · rw [H3 ht hn hc]
        simp
      · rw [H2 ht hn]
        simp
    · rw [H1 ht]
      simp
  simp only [Geometry.geometry_type, Geometry.geometry_name,
    Geometry.geometry_count, Geometry.children]
  exact ⟨H1, H2, H3, H4, H5, H6⟩

/-- C7. The comparator accepts every geometry against itself: the
structural-identity fast path fires on a reflexive comparison. -/
theorem equivalence_refl (g : Geometry) :
    assert_geom_equivalence g g = .ok () :=
  age_refl g

end Gdal
